import Mathlib

/-!
Verification development for the `project-starter` process supervisor.

The definitions below are a shallow embedding of `index.js`:
* `ThrottledOutputStream` — the bounded, time-windowed log transform;
* `executeCommand` — the pre-command executor with its background branch
  and 10-second timeout race;
* `startProject` / `launchProjects` — the per-project launch path with
  its working-directory check, staggered batch start, sink-mode routing
  and per-project log file;
* the memory sampler (`getChildProcessMemory` and friends) and the
  deterministic per-project console color.

Machine times are modelled as `Int` milliseconds; process handles as the
data the supervisor actually keeps about them.
-/

set_option autoImplicit false

namespace ProjectStarter

/-! ### MEMORY_CONFIG constants (index.js lines 14-21) -/

/-- Constant `MEMORY_CONFIG.LINE_RETENTION_COUNT`: keep at most 1000 log lines. -/
def LINE_RETENTION_COUNT : Nat := 1000

/-- Constant `MEMORY_CONFIG.LOG_RETENTION_WINDOW_MS`: 15-minute retention window. -/
def LOG_RETENTION_WINDOW_MS : Int := 15 * 60 * 1000

/-- Constant `MEMORY_CONFIG.LOG_CLEANUP_INTERVAL_MS`: 30-second prune interval. -/
def LOG_CLEANUP_INTERVAL_MS : Int := 30 * 1000

/-- Constant `MEMORY_CONFIG.STARTUP_DELAY_MS`: 1-second stagger between launches. -/
def STARTUP_DELAY_MS : Nat := 1000

/-! ### JavaScript string primitives

The JS `trim`, one-character `split` and `endsWith`/`slice` used by the
source, embedded structurally over the character list so that every
definition evaluates inside the kernel. -/

/-- JS `str.trim()`: drop leading and trailing whitespace. -/
def jsTrim (s : String) : String :=
  ⟨((s.data.dropWhile Char.isWhitespace).reverse.dropWhile Char.isWhitespace).reverse⟩

/-- Accumulator loop for `jsSplit`. -/
def jsSplitAux (sep : Char) : List Char → List Char → List String
  | [], acc => [⟨acc.reverse⟩]
  | c :: rest, acc =>
    if c = sep then ⟨acc.reverse⟩ :: jsSplitAux sep rest []
    else jsSplitAux sep rest (c :: acc)

/-- JS `str.split(sep)` for a one-character separator: always returns at
least one (possibly empty) piece. -/
def jsSplit (s : String) (sep : Char) : List String :=
  jsSplitAux sep s.data []

/-- JS `str.endsWith('&')`. -/
def endsWithAmp (s : String) : Bool :=
  s.data.getLast? = some '&'

/-- JS `str.slice(0, -1)`: drop the final character. -/
def sliceDropLast (s : String) : String :=
  ⟨s.data.dropLast⟩

/-! ### ThrottledOutputStream (index.js lines 143-231) -/

/-- One buffered log entry `{timestamp, line}`. -/
structure LogEntry where
  timestamp : Int
  line : String
deriving Repr, DecidableEq

/-- The state of a `ThrottledOutputStream`: the entry buffer, its line
count, and the configured bounds. -/
structure ThrottledOutputStream where
  lineCount : Nat
  maxLines : Nat
  retentionWindowMs : Int
  cleanupIntervalMs : Int
  buffer : List LogEntry
deriving Repr, DecidableEq

/-- The constructor: `options.maxLines || LINE_RETENTION_COUNT` (a falsy
value falls back to the default), and the `?? default` / `> 0` checks on
the retention window and cleanup interval. -/
def ThrottledOutputStream.init (maxLinesOpt : Option Nat)
    (retentionWindowMsOpt : Option Int) (cleanupIntervalMsOpt : Option Int) :
    ThrottledOutputStream :=
  let maxLines :=
    match maxLinesOpt with
    | some v => if v = 0 then LINE_RETENTION_COUNT else v
    | none => LINE_RETENTION_COUNT
  let windowMs := retentionWindowMsOpt.getD LOG_RETENTION_WINDOW_MS
  let cleanupMs := cleanupIntervalMsOpt.getD LOG_CLEANUP_INTERVAL_MS
  { lineCount := 0
    maxLines := maxLines
    retentionWindowMs := if windowMs > 0 then windowMs else LOG_RETENTION_WINDOW_MS
    cleanupIntervalMs := if cleanupMs > 0 then cleanupMs else LOG_CLEANUP_INTERVAL_MS
    buffer := [] }

/-- Method `pushEntry(line, timestamp)`: append the entry, and on overflow drop
the oldest one (`this.buffer.shift()`). -/
def ThrottledOutputStream.pushEntry (s : ThrottledOutputStream)
    (line : String) (timestamp : Int) : ThrottledOutputStream :=
  let s1 : ThrottledOutputStream :=
    { s with buffer := s.buffer ++ [⟨timestamp, line⟩], lineCount := s.lineCount + 1 }
  if s1.lineCount > s1.maxLines then
    { s1 with buffer := s1.buffer.tail, lineCount := s1.lineCount - 1 }
  else s1

/-- The `while` loop of `pruneExpired`: shift expired entries off the
front of the buffer, decrementing the count, until the head is fresh. -/
def pruneLoop (cutoff : Int) : List LogEntry → Nat → List LogEntry × Nat
  | [], count => ([], count)
  | e :: rest, count =>
    if e.timestamp < cutoff then pruneLoop cutoff rest (count - 1)
    else (e :: rest, count)

/-- Method `pruneExpired(now)`: drop every leading entry whose timestamp is
strictly older than `now - retentionWindowMs`. -/
def ThrottledOutputStream.pruneExpired (s : ThrottledOutputStream)
    (now : Int) : ThrottledOutputStream :=
  let cutoff := now - s.retentionWindowMs
  let r := pruneLoop cutoff s.buffer s.lineCount
  { s with buffer := r.1, lineCount := r.2 }

/-- Method `_transform(chunk, encoding, callback)`: split the chunk on `"\n"`,
push every non-blank line with the shared timestamp `now`, run an
immediate prune pass, and forward the chunk itself downstream untouched
(`this.push(chunk)`).  The second component is the list of chunks pushed
downstream by this call. -/
def ThrottledOutputStream._transform (s : ThrottledOutputStream)
    (chunk : String) (now : Int) : ThrottledOutputStream × List String :=
  let lines := jsSplit chunk '\n'
  let s1 := lines.foldl (fun st line => if jsTrim line = "" then st else st.pushEntry line now) s
  let s2 := s1.pruneExpired now
  (s2, [chunk])

/-- An observable operation on a channel: an `ingest` (one `_transform`
call) or a timer-driven prune tick. -/
inductive ChannelOp
  | ingest (chunk : String) (now : Int)
  | timerPrune (now : Int)
deriving Repr, DecidableEq

/-- The clock reading at which an operation happens. -/
def ChannelOp.time : ChannelOp → Int
  | .ingest _ now => now
  | .timerPrune now => now

/-- Apply one operation to the channel state. -/
def applyOp (s : ThrottledOutputStream) : ChannelOp → ThrottledOutputStream
  | .ingest chunk now => (s._transform chunk now).1
  | .timerPrune now => s.pruneExpired now

/-- Run a sequence of operations from a given state. -/
def runOps (s : ThrottledOutputStream) (ops : List ChannelOp) : ThrottledOutputStream :=
  ops.foldl applyOp s

/-- The channel's internal well-formedness at clock reading `t`: the line
count mirrors the buffer length, the buffer is within the line bound, and
entries are time-ordered and no newer than `t`. -/
def ChannelInv (s : ThrottledOutputStream) (t : Int) : Prop :=
  s.lineCount = s.buffer.length ∧
  s.buffer.length ≤ s.maxLines ∧
  s.buffer.Pairwise (fun a b => a.timestamp ≤ b.timestamp) ∧
  ∀ e ∈ s.buffer, e.timestamp ≤ t

/-- After a prune pass at clock reading `t`, no retained entry is older
than `t - retentionWindowMs`. -/
def PrunedAt (s : ThrottledOutputStream) (t : Int) : Prop :=
  ∀ e ∈ s.buffer, t - s.retentionWindowMs ≤ e.timestamp

/-- The time bound component of `ChannelInv` is monotone in `t`. -/
theorem ChannelInv.mono {s : ThrottledOutputStream} {t t' : Int}
    (h : ChannelInv s t) (hle : t ≤ t') : ChannelInv s t' :=
  ⟨h.1, h.2.1, h.2.2.1, fun e he => le_trans (h.2.2.2 e he) hle⟩

theorem pruneLoop_fst_sublist (cutoff : Int) :
    ∀ (l : List LogEntry) (n : Nat), (pruneLoop cutoff l n).1.Sublist l := by
  intro l
  induction l with
  | nil => intro n; simp [pruneLoop]
  | cons e rest ih =>
    intro n
    by_cases h : e.timestamp < cutoff
    · simpa [pruneLoop, h] using List.Sublist.cons e (ih (n - 1))
    · simp [pruneLoop, h]

theorem pruneLoop_count (cutoff : Int) :
    ∀ (l : List LogEntry) (n : Nat), n = l.length →
      (pruneLoop cutoff l n).2 = (pruneLoop cutoff l n).1.length := by
  intro l
  induction l with
  | nil => intro n hn; simp [pruneLoop, hn]
  | cons e rest ih =>
    intro n hn
    by_cases h : e.timestamp < cutoff
    · simpa [pruneLoop, h] using ih (n - 1) (by simp [hn])
    · simp [pruneLoop, h, hn]

theorem pruneLoop_fresh (cutoff : Int) :
    ∀ (l : List LogEntry) (n : Nat),
      l.Pairwise (fun a b => a.timestamp ≤ b.timestamp) →
      ∀ e ∈ (pruneLoop cutoff l n).1, cutoff ≤ e.timestamp := by
  intro l
  induction l with
  | nil => intro n _; simp [pruneLoop]
  | cons a rest ih =>
    intro n hp e he
    by_cases h : a.timestamp < cutoff
    · exact ih (n - 1) (List.Pairwise.of_cons hp) e (by simpa [pruneLoop, h] using he)
    · rw [pruneLoop] at he
      simp only [if_neg h] at he
      rcases List.mem_cons.mp he with rfl | hmem
      · exact le_of_not_lt h
      · exact le_trans (le_of_not_lt h) (List.rel_of_pairwise_cons hp hmem)

/-- Lemma: `pushEntry` with a timestamp at least as new as every buffered entry
preserves the channel invariant. -/
theorem pushEntry_inv {s : ThrottledOutputStream} {t : Int} (line : String)
    (h : ChannelInv s t) : ChannelInv (s.pushEntry line t) t := by
  obtain ⟨hc, hlen, hp, hub⟩ := h
  have hp' : (s.buffer ++ [⟨t, line⟩] : List LogEntry).Pairwise
      (fun a b => a.timestamp ≤ b.timestamp) := by
    rw [List.pairwise_append]
    exact ⟨hp, List.pairwise_singleton _ _, fun a ha b hb => by
      rcases List.mem_singleton.mp hb with rfl
      exact hub a ha⟩
  have hub' : ∀ e ∈ s.buffer ++ [(⟨t, line⟩ : LogEntry)], e.timestamp ≤ t := by
    intro e he
    rcases List.mem_append.mp he with h1 | h2
    · exact hub e h1
    · rcases List.mem_singleton.mp h2 with rfl
      exact le_refl t
  unfold ThrottledOutputStream.pushEntry
  by_cases hov : s.lineCount + 1 > s.maxLines
  · simp only [hov, if_pos]
    refine ⟨?_, ?_, ?_, ?_⟩
    · simp [List.length_tail, hc]
    · have : (s.buffer ++ [(⟨t, line⟩ : LogEntry)]).tail.length = s.buffer.length := by
        simp [List.length_tail]
      simpa [this] using hlen
    · exact hp'.sublist (List.tail_sublist _)
    · intro e he
      exact hub' e (List.mem_of_mem_tail he)
  · simp only [hov, if_neg, if_false]
    refine ⟨by simp [hc], ?_, hp', hub'⟩
    have : s.buffer.length + 1 ≤ s.maxLines := by
      omega
    simpa using this

/-- The `_transform` line-ingestion fold preserves the channel invariant. -/
theorem foldl_pushEntry_inv {t : Int} (lines : List String) :
    ∀ {s : ThrottledOutputStream}, ChannelInv s t →
      ChannelInv (lines.foldl
        (fun st line => if jsTrim line = "" then st else st.pushEntry line t) s) t := by
  induction lines with
  | nil => intro s h; exact h
  | cons l rest ih =>
    intro s h
    by_cases hb : jsTrim l = ""
    · simpa [hb] using ih (by simpa [hb] using h)
    · simpa [hb] using ih (pushEntry_inv l h)

/-- Lemma: `pruneExpired` preserves the invariant and establishes `PrunedAt`. -/
theorem pruneExpired_inv {s : ThrottledOutputStream} {t t' : Int}
    (h : ChannelInv s t) (hle : t ≤ t') :
    ChannelInv (s.pruneExpired t') t' ∧ PrunedAt (s.pruneExpired t') t' := by
  obtain ⟨hc, hlen, hp, hub⟩ := h
  have hsub := pruneLoop_fst_sublist (t' - s.retentionWindowMs) s.buffer s.lineCount
  refine ⟨⟨?_, ?_, ?_, ?_⟩, ?_⟩
  · exact pruneLoop_count (t' - s.retentionWindowMs) s.buffer s.lineCount hc
  · exact le_trans hsub.length_le hlen
  · exact hp.sublist hsub
  · intro e he
    exact le_trans (hub e (hsub.mem he)) hle
  · intro e he
    exact pruneLoop_fresh (t' - s.retentionWindowMs) s.buffer s.lineCount hp e he

/-- One channel operation at a clock reading `≥ t` re-establishes the
invariant at its own time and leaves the buffer freshly pruned. -/
theorem applyOp_inv {s : ThrottledOutputStream} {t : Int} (op : ChannelOp)
    (h : ChannelInv s t) (hle : t ≤ op.time) :
    ChannelInv (applyOp s op) op.time ∧ PrunedAt (applyOp s op) op.time := by
  cases op with
  | ingest chunk now =>
    have h1 := foldl_pushEntry_inv (t := now) (jsSplit chunk '\n') (h.mono hle)
    have h2 := pruneExpired_inv h1 (le_refl now)
    simpa [applyOp, ThrottledOutputStream._transform] using h2
  | timerPrune now =>
    simpa [applyOp] using pruneExpired_inv h hle

/-- The clock reading after the last operation (`t` if there is none). -/
def finalTime (t : Int) : List ChannelOp → Int
  | [] => t
  | op :: rest => finalTime op.time rest

theorem finalTime_getLast :
    ∀ (ops : List ChannelOp) (t : Int) (lastOp : ChannelOp),
      ops.getLast? = some lastOp → finalTime t ops = lastOp.time := by
  intro ops
  induction ops with
  | nil => intro t lastOp h; simp at h
  | cons op rest ih =>
    intro t lastOp h
    cases rest with
    | nil =>
      simp only [List.getLast?_singleton, Option.some.injEq] at h
      simp [finalTime, h]
    | cons op2 rest2 =>
      rw [List.getLast?_cons_cons] at h
      exact ih op.time lastOp h

theorem runOps_inv :
    ∀ (ops : List ChannelOp) (s : ThrottledOutputStream) (t : Int),
      ChannelInv s t → PrunedAt s t →
      List.Chain' (fun a b => a ≤ b) (t :: ops.map ChannelOp.time) →
      ChannelInv (runOps s ops) (finalTime t ops) ∧
        PrunedAt (runOps s ops) (finalTime t ops) := by
  intro ops
  induction ops with
  | nil => intro s t h hpr _; exact ⟨h, hpr⟩
  | cons op rest ih =>
    intro s t h hpr hchain
    rw [List.map_cons, List.chain'_cons] at hchain
    have step := applyOp_inv op h hchain.1
    exact ih (applyOp s op) op.time step.1 step.2 hchain.2

/-- C1: for every sequence of channel operations (ingest calls and
timer-driven prune ticks) with non-decreasing clock readings, starting
from a freshly constructed `ThrottledOutputStream`, after each operation
the internal buffer holds at most `maxLines` entries, and immediately
after the last operation (each of which ends in a prune pass) no retained
entry's timestamp is older than `now - retentionWindowMs`. -/
theorem c1_throttled_channel_bounds (maxLinesOpt : Option Nat)
    (wOpt cOpt : Option Int) (ops : List ChannelOp)
    (hmono : List.Chain' (fun a b => a ≤ b) (ops.map ChannelOp.time)) :
    (runOps (ThrottledOutputStream.init maxLinesOpt wOpt cOpt) ops).buffer.length ≤
      (runOps (ThrottledOutputStream.init maxLinesOpt wOpt cOpt) ops).maxLines ∧
    ∀ lastOp, ops.getLast? = some lastOp →
      ∀ e ∈ (runOps (ThrottledOutputStream.init maxLinesOpt wOpt cOpt) ops).buffer,
        lastOp.time -
            (runOps (ThrottledOutputStream.init maxLinesOpt wOpt cOpt) ops).retentionWindowMs ≤
          e.timestamp := by
  cases ops with
  | nil =>
    constructor
    · simp [runOps, ThrottledOutputStream.init]
    · intro lastOp h
      simp at h
  | cons op rest =>
    have hinv : ChannelInv (ThrottledOutputStream.init maxLinesOpt wOpt cOpt) op.time := by
      refine ⟨rfl, ?_, ?_, ?_⟩ <;> simp [ThrottledOutputStream.init]
    have hpr : PrunedAt (ThrottledOutputStream.init maxLinesOpt wOpt cOpt) op.time := by
      intro e he
      simp [ThrottledOutputStream.init] at he
    have hchain : List.Chain' (fun a b => a ≤ b)
        (op.time :: (op :: rest).map ChannelOp.time) := by
      rw [List.map_cons, List.chain'_cons]
      refine ⟨le_refl _, ?_⟩
      rw [List.map_cons] at hmono
      exact hmono
    have main := runOps_inv (op :: rest) _ op.time hinv hpr hchain
    refine ⟨main.1.2.1, ?_⟩
    intro lastOp hlast e he
    have hft := finalTime_getLast (op :: rest) op.time lastOp hlast
    have := main.2 e he
    rw [hft] at this
    exact this

/-- Witness for C1: a channel with `maxLines = 3` and a 100ms window,
after ingesting four lines at time 0, a timer prune at 50, and a final
ingest at 200, retains at most 3 entries, all within the window. -/
theorem c1_throttled_channel_bounds_witness :
    (runOps (ThrottledOutputStream.init (some 3) (some 100) none)
        [.ingest "a\nb\nc\nd" 0, .timerPrune 50, .ingest "e" 200]).buffer.length ≤
      (runOps (ThrottledOutputStream.init (some 3) (some 100) none)
        [.ingest "a\nb\nc\nd" 0, .timerPrune 50, .ingest "e" 200]).maxLines ∧
    ∀ e ∈ (runOps (ThrottledOutputStream.init (some 3) (some 100) none)
        [.ingest "a\nb\nc\nd" 0, .timerPrune 50, .ingest "e" 200]).buffer,
      (200 : Int) -
          (runOps (ThrottledOutputStream.init (some 3) (some 100) none)
            [.ingest "a\nb\nc\nd" 0, .timerPrune 50, .ingest "e" 200]).retentionWindowMs ≤
        e.timestamp := by
  have h := c1_throttled_channel_bounds (some 3) (some 100) none
    [.ingest "a\nb\nc\nd" 0, .timerPrune 50, .ingest "e" 200]
    (by simp [List.chain'_cons, ChannelOp.time])
  exact ⟨h.1, h.2 (.ingest "e" 200) rfl⟩

/-- C2: `_transform` forwards the original chunk downstream exactly once,
byte-for-byte unmodified, regardless of the channel's internal state:
the list of chunks pushed downstream by one ingest is exactly `[chunk]`. -/
theorem c2_transform_forwards_chunk (s : ThrottledOutputStream)
    (chunk : String) (now : Int) :
    (s._transform chunk now).2 = [chunk] := rfl

/-! ### executeCommand (index.js lines 287-350) -/

/-- What `Promise.race([commandPromise, timeoutPromise])` settles to:
either the command promise's value (an exit code) or the string
`'timeout'` from the timeout promise. -/
inductive RaceOutcome
  | finished (code : Int)
  | timeout
deriving Repr, DecidableEq

/-- Everything observable about one `executeCommand` call: the command
actually spawned (after background-marker stripping and splitting on
spaces), the spawn flags, whether the child was ever killed, when the
returned promise resolved (ms after the call), the race outcome, and
whether the "command may still be running" warning was logged. -/
structure ExecResult where
  actualCommand : String
  cmd : String
  args : List String
  detached : Bool
  unrefCalled : Bool
  killed : Bool
  resolveTimeMs : Nat
  outcome : RaceOutcome
  timeoutWarningLogged : Bool
deriving Repr, DecidableEq

/-- The hardcoded pre-command timeout: `const TIMEOUT = 10000` (10s). -/
def TIMEOUT : Nat := 10000

/-- Shallow embedding of `executeCommand(command, type)`.  The child's
behaviour is an oracle: `closeTimeMs` is when its `close` event would
fire (`none` for a process that never exits) and `exitCode` its code.
A trailing `&` (after `trim`) selects the background branch: the marker
is stripped (`slice(0, -1)` then `trim`), the child is spawned detached,
`unref()` is called and the promise resolves at once with code 0.  A
foreground command races against the 10s timeout; the loser is ignored
and the child is never killed. -/
def executeCommand (command : String) (closeTimeMs : Option Nat)
    (exitCode : Int) : ExecResult :=
  let isBackgroundCommand := endsWithAmp (jsTrim command)
  let actualCommand :=
    if isBackgroundCommand then jsTrim (sliceDropLast (jsTrim command)) else command
  let parts := jsSplit actualCommand ' '
  let cmd := parts.headD ""
  let args := parts.tail
  if isBackgroundCommand then
    { actualCommand := actualCommand, cmd := cmd, args := args
      detached := true, unrefCalled := true, killed := false
      resolveTimeMs := 0, outcome := .finished 0, timeoutWarningLogged := false }
  else
    match closeTimeMs with
    | some t =>
      if t < TIMEOUT then
        { actualCommand := actualCommand, cmd := cmd, args := args
          detached := false, unrefCalled := false, killed := false
          resolveTimeMs := t, outcome := .finished exitCode
          timeoutWarningLogged := false }
      else
        { actualCommand := actualCommand, cmd := cmd, args := args
          detached := false, unrefCalled := false, killed := false
          resolveTimeMs := TIMEOUT, outcome := .timeout
          timeoutWarningLogged := true }
    | none =>
      { actualCommand := actualCommand, cmd := cmd, args := args
        detached := false, unrefCalled := false, killed := false
        resolveTimeMs := TIMEOUT, outcome := .timeout
        timeoutWarningLogged := true }

/-- C3: a foreground pre-command that has not finished within the 10s
timeout resolves exactly at the timeout with the timed-out outcome, the
underlying process is not killed, and the warning is logged — so a hung
pre-command never blocks the launch. -/
theorem c3_executeCommand_timeout (command : String) (closeTimeMs : Option Nat)
    (exitCode : Int)
    (hfg : endsWithAmp (jsTrim command) = false)
    (hslow : ∀ t, closeTimeMs = some t → TIMEOUT ≤ t) :
    (executeCommand command closeTimeMs exitCode).outcome = RaceOutcome.timeout ∧
    (executeCommand command closeTimeMs exitCode).resolveTimeMs = 10000 ∧
    (executeCommand command closeTimeMs exitCode).killed = false ∧
    (executeCommand command closeTimeMs exitCode).timeoutWarningLogged = true := by
  cases closeTimeMs with
  | none => simp [executeCommand, hfg, TIMEOUT]
  | some t =>
    have hnot : ¬ t < 10000 := by
      have := hslow t rfl
      rw [TIMEOUT] at this
      omega
    simp [executeCommand, hfg, hnot, TIMEOUT]

/-- Witness for C3: `sleep 999` never closing resolves at 10000ms as a
timeout, with the child left running. -/
theorem c3_executeCommand_timeout_witness :
    (executeCommand "sleep 999" none 0).outcome = RaceOutcome.timeout ∧
    (executeCommand "sleep 999" none 0).resolveTimeMs = 10000 ∧
    (executeCommand "sleep 999" none 0).killed = false ∧
    (executeCommand "sleep 999" none 0).timeoutWarningLogged = true :=
  c3_executeCommand_timeout "sleep 999" none 0 (by decide)
    (fun t h => by simp at h)

/-- C4: a pre-command whose trimmed form ends in `&` is spawned detached
with the trailing `&` stripped, `unref()` is called (no handle retained),
and the call resolves immediately (time 0, code 0) without waiting for
the child — regardless of when (or whether) the child would exit. -/
theorem c4_executeCommand_background (command : String)
    (closeTimeMs : Option Nat) (exitCode : Int)
    (hbg : endsWithAmp (jsTrim command) = true) :
    (executeCommand command closeTimeMs exitCode).detached = true ∧
    (executeCommand command closeTimeMs exitCode).unrefCalled = true ∧
    (executeCommand command closeTimeMs exitCode).resolveTimeMs = 0 ∧
    (executeCommand command closeTimeMs exitCode).outcome = RaceOutcome.finished 0 ∧
    (executeCommand command closeTimeMs exitCode).killed = false ∧
    (executeCommand command closeTimeMs exitCode).actualCommand =
      jsTrim (sliceDropLast (jsTrim command)) := by
  simp [executeCommand, hbg]

/-- Witness for C4: `"npm run daemon &"` (even with a child that would
never exit) backgrounds immediately with the marker stripped. -/
theorem c4_executeCommand_background_witness :
    (executeCommand "npm run daemon &" none 0).detached = true ∧
    (executeCommand "npm run daemon &" none 0).unrefCalled = true ∧
    (executeCommand "npm run daemon &" none 0).resolveTimeMs = 0 ∧
    (executeCommand "npm run daemon &" none 0).outcome = RaceOutcome.finished 0 ∧
    (executeCommand "npm run daemon &" none 0).killed = false ∧
    (executeCommand "npm run daemon &" none 0).actualCommand =
      jsTrim (sliceDropLast (jsTrim "npm run daemon &")) :=
  c4_executeCommand_background "npm run daemon &" none 0 (by decide)

/-! ### startProject and the concurrent launch (index.js 262-495, 769-809) -/

/-- One project's configuration entry (`config.projects[name]`). -/
structure ProjectConfig where
  path : String
  command : String
  preCommands : List String
deriving Repr, DecidableEq

/-- The configuration consumed by the launcher. -/
structure Config where
  projects : List (String × ProjectConfig)
  globalPreCommands : List String
deriving Repr, DecidableEq

/-- Lookup of `config.projects[projectName]`. -/
def lookupProject (config : Config) (name : String) : Option ProjectConfig :=
  (config.projects.find? (fun p => p.1 = name)).map Prod.snd

/-- The externally visible actions a `startProject` call performs, in
order. -/
inductive StartEvent
  | configMissingError
  | pathMissingError (path : String)
  | preCommandRun (cmd : String)
  | mainSpawned (cmd : String) (cwd : String)
deriving Repr, DecidableEq

/-- Shallow embedding of `startProject(projectName, config, options)`.
`pathExists` is the `fs.existsSync` oracle.  Missing configuration or a
missing working directory reports an error and returns `null` before any
pre-command runs or any process is spawned; otherwise the global
pre-commands, then the project pre-commands, run in order and the main
command is spawned in the project's path.  Returns the process handle
(`some projectName`) or `none`, with the event trace. -/
def startProject (pathExists : String → Bool) (projectName : String)
    (config : Config) : Option String × List StartEvent :=
  match lookupProject config projectName with
  | none => (none, [.configMissingError])
  | some projectConfig =>
    if pathExists projectConfig.path = false then
      (none, [.pathMissingError projectConfig.path])
    else
      (some projectName,
        (config.globalPreCommands.map StartEvent.preCommandRun) ++
          (projectConfig.preCommands.map StartEvent.preCommandRun) ++
          [.mainSpawned projectConfig.command projectConfig.path])

/-- The settle-all launch of `main`: each project of the platform is
started independently and its outcome collected (`Promise.allSettled`). -/
def launchProjects (pathExists : String → Bool) (config : Config)
    (projectsToStart : List String) : List (Option String) :=
  projectsToStart.map (fun p => (startProject pathExists p config).1)

/-- The success count reported by `main` (`results.filter(fulfilled && value)`). -/
def successCount (results : List (Option String)) : Nat :=
  results.countP Option.isSome

/-- The `web` platform scenario: `api`'s working directory is missing,
`ui`'s exists. -/
def webConfig : Config :=
  { projects :=
      [("api", { path := "/missing/api", command := "npm run serve", preCommands := ["npm ci"] }),
       ("ui", { path := "/exists/ui", command := "npm run serve", preCommands := [] })]
    globalPreCommands := [] }

/-- The `fs.existsSync` oracle of the scenario. -/
def webPathExists : String → Bool := fun p => p = "/exists/ui"

/-- C5: a project whose working directory does not exist reports the
error and returns `null` with no pre-command run and no process spawned;
and in the `web` scenario (`[api, ui]`, `api`'s path missing) the launch
settles to `api` failed, `ui` started, success count 1 of 2. -/
theorem c5_startProject_missing_path :
    (∀ (pathExists : String → Bool) (config : Config) (name : String)
        (pc : ProjectConfig),
      lookupProject config name = some pc →
      pathExists pc.path = false →
      startProject pathExists name config = (none, [.pathMissingError pc.path])) ∧
    launchProjects webPathExists webConfig ["api", "ui"] = [none, some "ui"] ∧
    successCount (launchProjects webPathExists webConfig ["api", "ui"]) = 1 ∧
    (["api", "ui"] : List String).length = 2 := by
  refine ⟨?_, by decide, by decide, rfl⟩
  intro pathExists config name pc hlook hmiss
  simp [startProject, hlook, hmiss]

/-- Witness for C5: the general fail-fast statement applied to the
concrete `web` scenario's `api` project. -/
theorem c5_startProject_missing_path_witness :
    startProject webPathExists "api" webConfig =
      (none, [.pathMissingError "/missing/api"]) :=
  c5_startProject_missing_path.1 webPathExists webConfig "api"
    { path := "/missing/api", command := "npm run serve", preCommands := ["npm ci"] }
    (by decide) (by decide)

/-! ### Staggered batch start (index.js 769-788) -/

/-- The staggered schedule built by `main`'s `startPromises`: the entry
for index `i` awaits `i * STARTUP_DELAY_MS` before its supervised start,
so that start begins at `batchStart + i * STARTUP_DELAY_MS`. -/
def startSchedule (batchStart : Nat) : Nat → List String → List (String × Nat)
  | _, [] => []
  | index, p :: rest =>
    (p, batchStart + index * STARTUP_DELAY_MS) :: startSchedule batchStart (index + 1) rest

theorem startSchedule_getD :
    ∀ (ps : List String) (index i batchStart : Nat), i < ps.length →
      ((startSchedule batchStart index ps).map Prod.snd).getD i 0 =
        batchStart + (index + i) * STARTUP_DELAY_MS := by
  intro ps
  induction ps with
  | nil => intro index i batchStart h; simp at h
  | cons p rest ih =>
    intro index i batchStart h
    cases i with
    | zero => simp [startSchedule]
    | succ j =>
      have hj : j < rest.length := by simpa using h
      have := ih (index + 1) j batchStart hj
      simpa [startSchedule, Nat.add_assoc, Nat.add_comm 1 j] using this

/-- C6: in a batch of `N` projects, the `i`-th project's supervised start
(0-indexed) begins at `batchStart + i * STARTUP_DELAY_MS`, hence no
earlier than `batchStart + i * 1000` with the default 1000ms delay. -/
theorem c6_staggered_start (batchStart : Nat) (ps : List String) (i : Nat)
    (hi : i < ps.length) :
    ((startSchedule batchStart 0 ps).map Prod.snd).getD i 0 =
      batchStart + i * STARTUP_DELAY_MS ∧
    batchStart + i * 1000 ≤ ((startSchedule batchStart 0 ps).map Prod.snd).getD i 0 ∧
    STARTUP_DELAY_MS = 1000 := by
  have h := startSchedule_getD ps 0 i batchStart hi
  rw [Nat.zero_add] at h
  exact ⟨h, by rw [h, STARTUP_DELAY_MS], rfl⟩

/-- Witness for C6: the third project of a batch of three starting at
batch time 42 begins at `42 + 2 * 1000`. -/
theorem c6_staggered_start_witness :
    ((startSchedule 42 0 ["api", "ui", "admin"]).map Prod.snd).getD 2 0 =
      42 + 2 * STARTUP_DELAY_MS ∧
    42 + 2 * 1000 ≤ ((startSchedule 42 0 ["api", "ui", "admin"]).map Prod.snd).getD 2 0 ∧
    STARTUP_DELAY_MS = 1000 :=
  c6_staggered_start 42 ["api", "ui", "admin"] 2 (by decide)

/-! ### Memory sampling (index.js 67-111, 813-872) -/

/-- Function `getChildProcessMemory(pid)`: the `ps -o rss=` query returns the
resident size in KB; a query error resolves to 0; otherwise the KB value
is converted to bytes. -/
def getChildProcessMemory (queryRss : Option Nat) : Nat :=
  match queryRss with
  | none => 0
  | some rssKB => rssKB * 1024

/-- Function `getTotalChildProcessesMemory(processes)`: sum the per-child resident
bytes over every tracked handle that is non-null and has a pid.  A handle
is modelled by its optional pid; `query` is the OS process-table oracle
(`none` meaning the `ps` query failed for that pid). -/
def getTotalChildProcessesMemory (query : Nat → Option Nat)
    (pids : List (Option Nat)) : Nat :=
  pids.foldl
    (fun totalMemory pid? =>
      match pid? with
      | some pid => totalMemory + getChildProcessMemory (query pid)
      | none => totalMemory) 0

/-- One tick of the memory monitor: parent resident bytes plus the child
aggregate. -/
structure MemorySample where
  parentRss : Nat
  childMemory : Nat
  totalMemory : Nat
deriving Repr, DecidableEq

/-- The computation of one `memoryMonitor` tick (index.js 813-824). -/
def sampleMemory (parentRss : Nat) (query : Nat → Option Nat)
    (pids : List (Option Nat)) : MemorySample :=
  let childMemory := getTotalChildProcessesMemory query pids
  { parentRss := parentRss, childMemory := childMemory
    totalMemory := parentRss + childMemory }

/-- The presentation status chosen from the total (green / yellow / red). -/
inductive MemStatus
  | normal
  | warning
  | danger
deriving Repr, DecidableEq

/-- The 50MB "elevated" threshold (`totalThresholdWarning`). -/
def totalThresholdWarning : Nat := 50 * 1024 * 1024

/-- The 100MB "critical" threshold (`totalThresholdDanger`). -/
def totalThresholdDanger : Nat := 100 * 1024 * 1024

/-- The sequential threshold checks of the monitor (index.js 835-850). -/
def classifyMemory (totalMemory : Nat) : MemStatus :=
  let statusA := MemStatus.normal
  let statusB := if totalMemory > totalThresholdWarning then MemStatus.warning else statusA
  if totalMemory > totalThresholdDanger then MemStatus.danger else statusB

theorem getTotal_foldl_eq (query : Nat → Option Nat) :
    ∀ (pids : List (Option Nat)) (acc : Nat),
      pids.foldl
        (fun totalMemory pid? =>
          match pid? with
          | some pid => totalMemory + getChildProcessMemory (query pid)
          | none => totalMemory) acc =
      acc + ((pids.filterMap id).map (fun pid => getChildProcessMemory (query pid))).sum := by
  intro pids
  induction pids with
  | nil => intro acc; simp
  | cons pid? rest ih =>
    intro acc
    cases pid? with
    | none => simpa using ih acc
    | some pid =>
      simp only [List.foldl_cons]
      rw [ih (acc + getChildProcessMemory (query pid))]
      simp [List.filterMap_cons]
      omega

/-- The query oracle of the C7 scenario: children 101 and 202 report
10MB and 15MB resident (in KB, as `ps` does). -/
def scenarioQuery : Nat → Option Nat := fun pid =>
  if pid = 101 then some 10240 else if pid = 202 then some 15360 else none

/-- C7: a memory sample's total is the parent's resident bytes plus the
sum of resident bytes over the tracked child handles, a failed per-child
query contributing exactly zero; children of 10MB and 15MB with a 5MB
parent total 30MB, classified below the 50MB elevated threshold. -/
theorem c7_memory_sample :
    (∀ (query : Nat → Option Nat) (pids : List (Option Nat)) (parentRss : Nat),
      (sampleMemory parentRss query pids).totalMemory =
        parentRss +
          ((pids.filterMap id).map (fun pid => getChildProcessMemory (query pid))).sum) ∧
    getChildProcessMemory none = 0 ∧
    (sampleMemory (5 * 1024 * 1024) scenarioQuery [some 101, some 202]).totalMemory =
      30 * 1024 * 1024 ∧
    classifyMemory
        (sampleMemory (5 * 1024 * 1024) scenarioQuery [some 101, some 202]).totalMemory =
      MemStatus.normal := by
  refine ⟨?_, rfl, by decide, by decide⟩
  intro query pids parentRss
  simp only [sampleMemory, getTotalChildProcessesMemory]
  rw [getTotal_foldl_eq query pids 0, Nat.zero_add]

/-! ### Per-project console color (index.js 391-394) -/

/-- The fixed ANSI palette. -/
def colors : List String :=
  ["\x1b[32m", "\x1b[33m", "\x1b[34m", "\x1b[35m", "\x1b[36m",
   "\x1b[90m", "\x1b[94m", "\x1b[96m"]

/-- The source's `Math.abs(name.split('').reduce((acc, c) => acc + c.charCodeAt(0), 0))
% colors.length`. -/
def colorIndex (projectName : String) : Nat :=
  (projectName.data.foldl (fun acc c => acc + (c.toNat : Int)) 0).natAbs % colors.length

/-- Selection `colors[colorIndex]`. -/
def projectColor (projectName : String) : String :=
  colors.getD (colorIndex projectName) ""

theorem charCode_foldl_eq :
    ∀ (l : List Char) (z : Int),
      l.foldl (fun acc c => acc + (c.toNat : Int)) z = z + ((l.map Char.toNat).sum : Nat) := by
  intro l
  induction l with
  | nil => intro z; simp
  | cons c rest ih =>
    intro z
    simp only [List.foldl_cons, List.map_cons, List.sum_cons]
    rw [ih (z + c.toNat)]
    push_cast
    ring

/-- C9: the console color of a project is
`palette[(sum of character codes of the name) mod 8]` — a pure function
of the project name alone, hence identical on every run. -/
theorem c9_project_color (projectName : String) :
    colorIndex projectName = (projectName.data.map Char.toNat).sum % 8 ∧
    projectColor projectName =
      colors.getD ((projectName.data.map Char.toNat).sum % 8) "" ∧
    colors.length = 8 := by
  have hidx : colorIndex projectName = (projectName.data.map Char.toNat).sum % 8 := by
    have hlen : colors.length = 8 := rfl
    unfold colorIndex
    rw [charCode_foldl_eq projectName.data 0, Int.zero_add, Int.natAbs_ofNat, hlen]
  exact ⟨hidx, by rw [projectColor, hidx], rfl⟩

/-! ### Per-project log file (index.js 376-389, 437-479) -/

/-- A raw output event on the child's stdout or stderr. -/
inductive OutputChunk
  | stdout (data : String)
  | stderr (data : String)
deriving Repr, DecidableEq

/-- The stdio configuration chosen from the sink mode: `file` inherits
the caller's stdio, every other mode pipes. -/
def stdioConfig (logMode : String) : String :=
  if logMode = "file" then "inherit" else "pipe"

/-- The banner row `'='.repeat(80)`. -/
def bannerLine : String :=
  ⟨List.replicate 80 '='⟩

/-- The text appended for one output event in `both` mode. -/
def chunkLogText : OutputChunk → String
  | .stdout data => "[STDOUT] " ++ data
  | .stderr data => "[STDERR] " ++ data

/-- The exact sequence of `logStream.write` calls over a run, in order:
nothing in `console` mode; otherwise the five start-banner writes, the
per-chunk writes (in `both` mode only), and the exit write at `close`. -/
def logStreamWrites (logMode : String) (startTs projectName command projectPath : String)
    (output : List OutputChunk) (endTs : String) (exitCode : Int) : List String :=
  if logMode = "file" ∨ logMode = "both" then
    ["\n" ++ bannerLine ++ "\n",
     "[" ++ startTs ++ "] " ++ "项目启动: " ++ projectName ++ "\n",
     "命令: " ++ command ++ "\n",
     "路径: " ++ projectPath ++ "\n",
     bannerLine ++ "\n" ++ "\n"] ++
    (if logMode = "both" then output.map chunkLogText else []) ++
    ["\n" ++ "[" ++ endTs ++ "] " ++ "进程退出，退出码: " ++ toString exitCode ++ "\n"]
  else []

/-- The log file a run leaves behind: `none` when no file sink is open,
otherwise the concatenation of the writes. -/
def logFileContent (logMode : String) (startTs projectName command projectPath : String)
    (output : List OutputChunk) (endTs : String) (exitCode : Int) : Option String :=
  if logMode = "file" ∨ logMode = "both" then
    some (String.join
      (logStreamWrites logMode startTs projectName command projectPath output endTs exitCode))
  else none

/-- The start banner block as the spec describes it: a row of 80 `=`,
the started line with ISO timestamp and project, the command and
working-directory lines, a closing `=` row and a blank line. -/
def logFileHeader (startTs projectName command projectPath : String) : String :=
  "\n" ++ bannerLine ++ "\n" ++
  "[" ++ startTs ++ "] " ++ "项目启动: " ++ projectName ++ "\n" ++
  "命令: " ++ command ++ "\n" ++
  "路径: " ++ projectPath ++ "\n" ++
  bannerLine ++ "\n" ++ "\n"

/-- The body as the spec describes it: raw prefixed chunks in `both`
mode only, nothing otherwise. -/
def logFileBody (logMode : String) (output : List OutputChunk) : String :=
  if logMode = "both" then String.join (output.map chunkLogText) else ""

/-- The closing exited line with ISO timestamp and exit code. -/
def logFileFooter (endTs : String) (exitCode : Int) : String :=
  "\n" ++ "[" ++ endTs ++ "] " ++ "进程退出，退出码: " ++ toString exitCode ++ "\n"

theorem join_cons_eq (s : String) (l : List String) :
    String.join (s :: l) = s ++ String.join l := by
  have aux : ∀ (l : List String) (acc : String),
      l.foldl (fun r t => r ++ t) acc = acc ++ String.join l := by
    intro l
    induction l with
    | nil => intro acc; simp [String.join]
    | cons t rest ih =>
      intro acc
      show rest.foldl (fun r t => r ++ t) (acc ++ t) = acc ++ String.join (t :: rest)
      rw [ih (acc ++ t), String.append_assoc]
      congr 1
      exact (calc String.join (t :: rest)
          = rest.foldl (fun r t => r ++ t) ("" ++ t) := rfl
        _ = ("" ++ t) ++ String.join rest := ih ("" ++ t)
        _ = t ++ String.join rest := by rw [String.empty_append]).symm
  calc String.join (s :: l)
      = l.foldl (fun r t => r ++ t) ("" ++ s) := rfl
    _ = ("" ++ s) ++ String.join l := aux l ("" ++ s)
    _ = s ++ String.join l := by rw [String.empty_append]

theorem join_append_eq (l1 l2 : List String) :
    String.join (l1 ++ l2) = String.join l1 ++ String.join l2 := by
  induction l1 with
  | nil =>
    rw [List.nil_append]
    show String.join l2 = String.join [] ++ String.join l2
    rw [show String.join ([] : List String) = "" from rfl, String.empty_append]
  | cons s rest ih =>
    rw [List.cons_append, join_cons_eq, join_cons_eq, ih, String.append_assoc]

/-- The writes of a run with a file sink concatenate to the banner
block, the mode-dependent body, and the exit line. -/
theorem logFileContent_decomp (logMode startTs projectName command projectPath : String)
    (output : List OutputChunk) (endTs : String) (exitCode : Int)
    (hmode : logMode = "file" ∨ logMode = "both") :
    logFileContent logMode startTs projectName command projectPath output endTs exitCode =
      some (logFileHeader startTs projectName command projectPath ++
        logFileBody logMode output ++ logFileFooter endTs exitCode) := by
  have key : ∀ body : List String,
      String.join
        (["\n" ++ bannerLine ++ "\n",
          "[" ++ startTs ++ "] " ++ "项目启动: " ++ projectName ++ "\n",
          "命令: " ++ command ++ "\n",
          "路径: " ++ projectPath ++ "\n",
          bannerLine ++ "\n" ++ "\n"] ++ body ++
         ["\n" ++ "[" ++ endTs ++ "] " ++ "进程退出，退出码: " ++ toString exitCode ++ "\n"]) =
      logFileHeader startTs projectName command projectPath ++ String.join body ++
        logFileFooter endTs exitCode := by
    intro body
    rw [join_append_eq, join_append_eq]
    simp only [join_cons_eq, logFileHeader, logFileFooter]
    rw [show String.join ([] : List String) = "" from rfl]
    simp only [String.append_empty, String.append_assoc]
  rcases hmode with h | h <;> subst h
  · rw [logFileContent, if_pos (Or.inl rfl), logStreamWrites, if_pos (Or.inl rfl)]
    rw [if_neg (by decide)]
    rw [key []]
    rw [show String.join ([] : List String) = "" from rfl]
    rw [logFileBody, if_neg (by decide), String.append_empty]
  · rw [logFileContent, if_pos (Or.inr rfl), logStreamWrites, if_pos (Or.inr rfl)]
    rw [if_pos rfl]
    rw [key (output.map chunkLogText)]
    rw [logFileBody, if_pos rfl]

/-- C8: with a file sink open (`file` or `both` mode) the log file is
exactly the start banner block (80 `=` rows, started / command /
working-directory lines, blank line), then — in `both` mode only — the
raw `[STDOUT]`/`[STDERR]`-prefixed chunks, then the closing exited line. -/
theorem c8_log_file_format (logMode startTs projectName command projectPath : String)
    (output : List OutputChunk) (endTs : String) (exitCode : Int)
    (hmode : logMode = "file" ∨ logMode = "both") :
    logFileContent logMode startTs projectName command projectPath output endTs exitCode =
      some (logFileHeader startTs projectName command projectPath ++
        logFileBody logMode output ++ logFileFooter endTs exitCode) ∧
    bannerLine.length = 80 ∧
    bannerLine.data.all (fun c => c = '=') = true ∧
    logFileBody "file" output = "" ∧
    logFileBody "both" output = String.join (output.map chunkLogText) :=
  ⟨logFileContent_decomp logMode startTs projectName command projectPath output endTs
      exitCode hmode,
    by decide, by decide, rfl, rfl⟩

/-- Witness for C8: a concrete `both`-mode run with one stdout and one
stderr chunk. -/
theorem c8_log_file_format_witness :
    logFileContent "both" "2025-01-01T00:00:00.000Z" "api" "npm run serve" "/srv/api"
        [.stdout "listening\n", .stderr "oops\n"] "2025-01-01T01:00:00.000Z" 0 =
      some (logFileHeader "2025-01-01T00:00:00.000Z" "api" "npm run serve" "/srv/api" ++
        logFileBody "both" [.stdout "listening\n", .stderr "oops\n"] ++
        logFileFooter "2025-01-01T01:00:00.000Z" 0) ∧
    bannerLine.length = 80 ∧
    bannerLine.data.all (fun c => c = '=') = true ∧
    logFileBody "file" [OutputChunk.stdout "listening\n", OutputChunk.stderr "oops\n"] = "" ∧
    logFileBody "both" [OutputChunk.stdout "listening\n", OutputChunk.stderr "oops\n"] =
      String.join
        ([OutputChunk.stdout "listening\n", OutputChunk.stderr "oops\n"].map chunkLogText) :=
  c8_log_file_format "both" "2025-01-01T00:00:00.000Z" "api" "npm run serve" "/srv/api"
    [.stdout "listening\n", .stderr "oops\n"] "2025-01-01T01:00:00.000Z" 0 (Or.inr rfl)

/-- C10: in `file` sink mode the child's stdio is inherited (no piping),
yet the per-project log file is still produced with the start and exit
banners; its content is independent of whatever the process writes, and
equals the banners alone — never any process output. -/
theorem c10_file_mode_banners_only
    (startTs projectName command projectPath : String)
    (output output2 : List OutputChunk) (endTs : String) (exitCode : Int) :
    stdioConfig "file" = "inherit" ∧
    stdioConfig "console" = "pipe" ∧
    stdioConfig "both" = "pipe" ∧
    (logFileContent "file" startTs projectName command projectPath output endTs
        exitCode).isSome = true ∧
    logFileContent "file" startTs projectName command projectPath output endTs exitCode =
      logFileContent "file" startTs projectName command projectPath output2 endTs exitCode ∧
    logFileContent "file" startTs projectName command projectPath output endTs exitCode =
      some (logFileHeader startTs projectName command projectPath ++
        logFileFooter endTs exitCode) := by
  have hfmt := fun (o : List OutputChunk) =>
    logFileContent_decomp "file" startTs projectName command projectPath o endTs exitCode
      (Or.inl rfl)
  have hbody : logFileBody "file" output = "" := rfl
  constructor
  · rfl
  constructor
  · rfl
  constructor
  · rfl
  constructor
  · rw [hfmt output]; rfl
  constructor
  · rw [hfmt output, hfmt output2]
    rfl
  · rw [hfmt output, hbody, String.append_empty]

end ProjectStarter
